import Mathlib

/-!
Shallow embedding of the pico-303 UI subsystem
(src/firmware/pico-303/UIManager.h / UIManager.cpp).

Machine integers are modelled as Nat or Int with explicit two-complement
reduction where C overflow can occur: the C type int16_t becomes an Int
reduced by wrap16, uint32_t subtraction becomes sub32, and uint8_t fields
become Nat.  Digital pin levels are Bool (true = HIGH, false = LOW).
-/

namespace Pico303

/-- Reduce an Int into the int16_t range [-32768, 32767], as C conversion
from int to int16_t does (two-complement wraparound). -/
def wrap16 (x : Int) : Int := (x + 32768) % 65536 - 32768

/-- uint32_t subtraction a - b (modulo 2^32); faithful for operands below
2^32, which C guarantees by type. -/
def sub32 (a b : Nat) : Nat := (4294967296 + a - b) % 4294967296

/-- Parameter record (UIManager.h lines 27-33).  uint8_t fields modelled
as Nat. -/
structure Parameter where
  name   : String
  cc     : Nat
  value  : Nat
  minVal : Nat
  maxVal : Nat
deriving Repr, DecidableEq

/-- UI states (UIManager.h lines 21-24). -/
inductive UIState where
  | UI_MENU
  | UI_EDIT
deriving Repr, DecidableEq

open UIState

/-- Quadrature decoding lookup table (UIManager.cpp lines 10-15):
[previous state][current state] -> delta. -/
def kQuadratureTable (prev cur : Nat) : Int :=
  match prev, cur with
  | 0, 0 =>  0 | 0, 1 =>  1 | 0, 2 => -1 | 0, 3 =>  0
  | 1, 0 => -1 | 1, 1 =>  0 | 1, 2 =>  0 | 1, 3 =>  1
  | 2, 0 =>  1 | 2, 1 =>  0 | 2, 2 =>  0 | 2, 3 => -1
  | 3, 0 =>  0 | 3, 1 => -1 | 3, 2 =>  1 | 3, 3 =>  0
  | _, _ =>  0

/-- The parameter table (UIManager.cpp lines 26-49), 22 entries. -/
def parameters : List Parameter := [
  ⟨"Volume",       7,   76,  0, 127⟩,
  ⟨"Wave ",       18,    0,  0, 127⟩,
  ⟨"Pitch",       16,   64,  0, 127⟩,
  ⟨"Cutoff",      74,   64,  0, 127⟩,
  ⟨"Res",         71,    0,  0, 127⟩,
  ⟨"Env",         17,   64,  0, 127⟩,
  ⟨"Decay",       75,   64,  0, 127⟩,
  ⟨"Accent",      15,   64,  0, 127⟩,
  ⟨"SubOsc",      14,    0,  0, 127⟩,
  ⟨"Dist On",     80,    0,  0, 127⟩,
  ⟨"Dist Mode",   77,    0,  0, 4⟩,
  ⟨"Dist Amt",    78,    0,  0, 127⟩,
  ⟨"Dist Mix",    79,    0,  0, 127⟩,
  ⟨"Dly Time",    81,   32,  0, 127⟩,
  ⟨"Dly Fdbk",    82,   64,  0, 127⟩,
  ⟨"Dly Sync",    86,   32,  0, 127⟩,
  ⟨"Dly L Div",   91,   32,  0, 127⟩,
  ⟨"Dly R Div",   92,   32,  0, 127⟩,
  ⟨"Dly L Mod",   93,    0,  0, 2⟩,
  ⟨"Dly R Mod",   94,    0,  0, 2⟩,
  ⟨"Dly Mix",     83,   38,  0, 127⟩,
  ⟨"Glide",      100,   64,  0, 127⟩]

/-- paramCount (UIManager.cpp line 51). -/
def paramCount : Nat := parameters.length

/-- The bounds invariant on a parameter store (spec section 3:
minVal <= value <= maxVal for every parameter). -/
def storeInv (ps : List Parameter) : Prop :=
  ∀ p ∈ ps, p.minVal ≤ p.value ∧ p.value ≤ p.maxVal

instance (ps : List Parameter) : Decidable (storeInv ps) := by
  unfold storeInv; infer_instance

/-- UIManager::updateParameterValue (UIManager.cpp lines 222-230): linear
scan, first cc match gets the raw value, break on first match. -/
def updateParameterValue (cc value : Nat) : List Parameter → List Parameter
  | [] => []
  | p :: rest =>
    if p.cc = cc then { p with value := value } :: rest
    else p :: updateParameterValue cc value rest

/-- Mutable polling-context state of UIManager (UIManager.h lines 94-108):
UI state, selected index, parameter store, and button debounce state. -/
structure UIMState where
  state : UIState
  currentParamIndex : Nat
  params : List Parameter
  lastButtonState : Bool
  lastButtonTime : Nat
deriving Repr, DecidableEq

/-- updateParameterValue lifted to the whole UIManager state. -/
def updateParameterValueM (s : UIMState) (cc value : Nat) : UIMState :=
  { s with params := updateParameterValue cc value s.params }

/-- The delta-handling branch of UIManager::update (UIManager.cpp lines
96-131).  Returns the new state, the list of callback invocations
(cc, value) made, and the needsRedraw contribution.  The int16_t
computations newIndex and newValue are wrap16-reduced as C conversion
does. -/
def applyDelta (s : UIMState) (delta : Int) : UIMState × List (Nat × Nat) × Bool :=
  if delta = 0 then (s, [], false)
  else if s.state = UI_MENU then
    let newIndex : Int := wrap16 ((s.currentParamIndex : Int) + delta)
    let count : Int := (s.params.length : Int)
    let wrapped : Int :=
      if newIndex < 0 then count - 1
      else if newIndex ≥ count then 0
      else newIndex
    ({ s with currentParamIndex := wrapped.toNat }, [], true)
  else
    match s.params.get? s.currentParamIndex with
    | none => (s, [], true)
    | some param =>
      let newValue : Int := wrap16 ((param.value : Int) + delta)
      let clamped : Int :=
        if newValue < (param.minVal : Int) then (param.minVal : Int)
        else if newValue > (param.maxVal : Int) then (param.maxVal : Int)
        else newValue
      let p2 := { param with value := clamped.toNat }
      ({ s with params := s.params.set s.currentParamIndex p2 },
       [(param.cc, clamped.toNat)], true)

/-- UIManager::calculateAcceleration (UIManager.cpp lines 179-189). -/
def calculateAcceleration (deltaTime : Nat) : Nat :=
  if deltaTime < 15 then 4
  else if deltaTime < 30 then 2
  else 1

/-- UIManager::readButton (UIManager.cpp lines 191-213) as a pure step:
given stored (lastButtonState, lastButtonTime) and the polled raw level
and time, return (pressed event, new lastButtonState, new lastButtonTime).
Levels are Bool with true = HIGH; the button is active low. -/
def readButton (lastButtonState : Bool) (lastButtonTime : Nat)
    (currentState : Bool) (now : Nat) : Bool × Bool × Nat :=
  if currentState = false ∧ lastButtonState = true then
    if sub32 now lastButtonTime > 100 then
      (true, currentState, now)
    else
      (false, lastButtonState, lastButtonTime)
  else if currentState = true ∧ lastButtonState = false then
    if sub32 now lastButtonTime > 100 then
      (false, currentState, now)
    else
      (false, lastButtonState, lastButtonTime)
  else
    (false, lastButtonState, lastButtonTime)

/-- One addition to the pending encoderDelta accumulator
(UIManager.cpp line 174): int16_t += with wraparound. -/
def addDelta (acc d : Int) : Int := wrap16 (acc + d)

/-- The drain at the start of UIManager::update (UIManager.cpp lines
90-94): read encoderDelta, reset it to 0, return the prior value
alongside the reset accumulator. -/
def drainDelta (pendingDelta : Int) : Int × Int := (pendingDelta, 0)

/-- The step-accumulator portion of UIManager::handleEncoderInterrupt
(UIManager.cpp lines 158-166): add the raw quadrature delta; once the
absolute value reaches 2, emit one detent direction and reset.  Returns
(new accumulator, emitted direction if any). -/
def stepAccStep (stepAccumulator rawDelta : Int) : Int × Option Int :=
  if rawDelta = 0 then (stepAccumulator, none)
  else
    let acc := stepAccumulator + rawDelta
    if 2 ≤ acc.natAbs then
      (0, some (if acc > 0 then 1 else -1))
    else
      (acc, none)

/-- Interrupt-context state (UIManager.h lines 98-100 static members). -/
structure EncState where
  lastEncoderState : Nat
  lastEncoderTime : Nat
  stepAccumulator : Int
  encoderDelta : Int
deriving Repr, DecidableEq

/-- UIManager::handleEncoderInterrupt (UIManager.cpp lines 148-177):
decode the pin pair, fold quarter-steps into detents, apply acceleration
from elapsed time, and add into the pending delta. -/
def handleEncoderInterrupt (s : EncState) (a b : Bool) (now : Nat) : EncState :=
  let currentState : Nat := (if a then 2 else 0) + (if b then 1 else 0)
  let rawDelta := kQuadratureTable s.lastEncoderState currentState
  let s1 := { s with lastEncoderState := currentState }
  match stepAccStep s.stepAccumulator rawDelta with
  | (acc, none) => { s1 with stepAccumulator := acc }
  | (acc, some direction) =>
    let deltaTime := sub32 now s.lastEncoderTime
    let multiplier := calculateAcceleration deltaTime
    { s1 with
      stepAccumulator := acc
      lastEncoderTime := now
      encoderDelta := addDelta s.encoderDelta (direction * (multiplier : Int)) }

/-- The clamp operation as the spec states it (section 4.6):
clamp(x, lo, hi) into the inclusive range [lo, hi]. -/
def specClamp (x lo hi : Int) : Int :=
  if x < lo then lo else if x > hi then hi else x

/-! ## Helper lemmas -/

theorem wrap16_eq_self {x : Int} (h1 : -32768 ≤ x) (h2 : x ≤ 32767) :
    wrap16 x = x := by
  unfold wrap16; omega

theorem wrap16_wrap16_add (a b : Int) :
    wrap16 (wrap16 a + b) = wrap16 (a + b) := by
  unfold wrap16; omega

theorem sub32_eq_sub {a b : Nat} (h1 : b ≤ a) (h2 : a < 4294967296) :
    sub32 a b = a - b := by
  unfold sub32; omega

theorem foldl_addDelta_eq (l : List Int) :
    ∀ s : Int, l.foldl addDelta (wrap16 s) = wrap16 (s + l.sum) := by
  induction l with
  | nil => intro s; simp
  | cons d l ih =>
    intro s
    have h1 : addDelta (wrap16 s) d = wrap16 (s + d) := wrap16_wrap16_add s d
    calc (d :: l).foldl addDelta (wrap16 s)
        = l.foldl addDelta (wrap16 (s + d)) := by
          simp [List.foldl_cons, h1]
      _ = wrap16 ((s + d) + l.sum) := ih (s + d)
      _ = wrap16 (s + (d :: l).sum) := by
          rw [List.sum_cons]; ring_nf

theorem drainDelta_fst (x : Int) : (drainDelta x).1 = x := rfl

theorem foldl_addDelta_zero (l : List Int) :
    l.foldl addDelta 0 = wrap16 l.sum := by
  have h0 : (0 : Int) = wrap16 0 := by unfold wrap16; omega
  rw [h0, foldl_addDelta_eq l 0]
  simp

theorem updateParameterValue_no_match (cc v : Nat) :
    ∀ ps : List Parameter, (∀ p ∈ ps, p.cc ≠ cc) →
      updateParameterValue cc v ps = ps := by
  intro ps
  induction ps with
  | nil => intro _; rfl
  | cons p rest ih =>
    intro h
    have hp : p.cc ≠ cc := h p (List.mem_cons_self p rest)
    simp only [updateParameterValue, if_neg hp]
    rw [ih (fun q hq => h q (List.mem_cons_of_mem p hq))]

theorem updateParameterValue_first_match (cc v : Nat) (p : Parameter)
    (post : List Parameter) :
    ∀ pre : List Parameter, (∀ q ∈ pre, q.cc ≠ cc) → p.cc = cc →
      updateParameterValue cc v (pre ++ p :: post)
        = pre ++ { p with value := v } :: post := by
  intro pre
  induction pre with
  | nil =>
    intro _ hp
    simp only [List.nil_append, updateParameterValue, if_pos hp]
  | cons q pre ih =>
    intro h hp
    have hq : q.cc ≠ cc := h q (List.mem_cons_self q pre)
    simp only [List.cons_append, updateParameterValue, if_neg hq]
    exact congrArg (List.cons q)
      (ih (fun r hr => h r (List.mem_cons_of_mem q hr)) hp)

/-! ## Claim theorems -/

/-- C1 counterexample: the initial store satisfies the bounds invariant,
but a single updateParameterValue call with cc = 77 (Dist Mode,
maxVal = 4) and value = 100 leaves the store violating it — the raw
value is stored without clamping. -/
theorem C1_counterexample :
    storeInv parameters ∧
      ¬ storeInv (updateParameterValue 77 100 parameters) := by
  decide

/-- C1 (amended): updateParameterValue stores the given value verbatim,
so the bounds invariant is preserved exactly when the value lies within
the bounds of every parameter carrying the given cc (in particular the
first match, the only one modified); an out-of-range value is stored
unclamped and breaks the invariant. -/
theorem C1_set_value_bounds (ps : List Parameter) (cc v : Nat)
    (hinv : storeInv ps)
    (hv : ∀ p ∈ ps, p.cc = cc → p.minVal ≤ v ∧ v ≤ p.maxVal) :
    storeInv (updateParameterValue cc v ps) := by
  induction ps with
  | nil => intro p hp; cases hp
  | cons q rest ih =>
    simp only [updateParameterValue]
    by_cases hq : q.cc = cc
    · rw [if_pos hq]
      intro p hp
      rcases List.mem_cons.mp hp with h | h
      · subst h
        exact hv q (List.mem_cons_self q rest) hq
      · exact hinv p (List.mem_cons_of_mem q h)
    · rw [if_neg hq]
      intro p hp
      rcases List.mem_cons.mp hp with h | h
      · subst h
        exact hinv p (List.mem_cons_self p rest)
      · exact ih (fun r hr => hinv r (List.mem_cons_of_mem q hr))
          (fun r hr => hv r (List.mem_cons_of_mem q hr)) p h

/-- C1 witness: a value inside the bounds of the matching parameter
keeps the invariant. -/
theorem C1_set_value_bounds_witness :
    storeInv (updateParameterValue 77 3 parameters) :=
  C1_set_value_bounds parameters 77 3 (by decide) (by decide)

/-- C2 counterexample: in Menu at selectedIndex 21 with the 22-entry
store, a drained delta of 2 snaps the index to 0, while the claimed
modular formula gives (21 + 2) mod 22 = 1. -/
theorem C2_counterexample :
    (applyDelta ⟨UIState.UI_MENU, 21, parameters, true, 0⟩ 2).1.currentParamIndex = 0 ∧
    (21 + 2) % paramCount = 1 := by
  decide

/-- C2 (amended): in Menu mode with delta not 0, the new index is
index + delta (16-bit arithmetic) snapped to count - 1 on any negative
result and to 0 on any result at or above count; this coincides with the
modular formula exactly for delta = +1 and delta = -1. -/
theorem C2_menu_wrap (s : UIMState)
    (hm : s.state = UIState.UI_MENU)
    (hi : s.currentParamIndex < s.params.length)
    (hlen : s.params.length ≤ 32767) :
    (applyDelta s 1).1.currentParamIndex
        = (s.currentParamIndex + 1) % s.params.length ∧
    (applyDelta s (-1)).1.currentParamIndex
        = (s.currentParamIndex + (s.params.length - 1)) % s.params.length ∧
    ∀ delta : Int, delta ≠ 0 →
      (applyDelta s delta).1.currentParamIndex =
        (if wrap16 ((s.currentParamIndex : Int) + delta) < 0
            then (s.params.length : Int) - 1
         else if wrap16 ((s.currentParamIndex : Int) + delta) ≥ (s.params.length : Int)
            then 0
         else wrap16 ((s.currentParamIndex : Int) + delta)).toNat := by
  have key : ∀ delta : Int, delta ≠ 0 →
      (applyDelta s delta).1.currentParamIndex =
        (if wrap16 ((s.currentParamIndex : Int) + delta) < 0
            then (s.params.length : Int) - 1
         else if wrap16 ((s.currentParamIndex : Int) + delta) ≥ (s.params.length : Int)
            then 0
         else wrap16 ((s.currentParamIndex : Int) + delta)).toNat := by
    intro delta hd
    simp only [applyDelta, if_neg hd, hm, if_pos, reduceIte]
  refine ⟨?_, ?_, key⟩
  · rw [key 1 one_ne_zero,
      wrap16_eq_self (by omega) (by omega)]
    by_cases hend : s.currentParamIndex + 1 = s.params.length
    · rw [if_neg (by omega), if_pos (by omega), hend, Nat.mod_self]
      rfl
    · rw [if_neg (by omega), if_neg (by omega),
        Nat.mod_eq_of_lt (by omega)]
      omega
  · rw [key (-1) (by decide)]
    by_cases h0 : s.currentParamIndex = 0
    · rw [h0]
      rw [show ((0 : Nat) : Int) + (-1) = -1 by decide,
        wrap16_eq_self (by omega) (by omega), if_pos (by omega),
        Nat.mod_eq_of_lt (by omega)]
      omega
    · rw [wrap16_eq_self (by omega) (by omega),
        if_neg (by omega), if_neg (by omega)]
      have harith : s.currentParamIndex + (s.params.length - 1)
          = (s.currentParamIndex - 1) + s.params.length := by omega
      rw [harith, Nat.add_mod_right, Nat.mod_eq_of_lt (by omega)]
      omega

/-- C2 witness: from index 0 a delta of -1 wraps to count - 1 = 21. -/
theorem C2_menu_wrap_witness :
    (applyDelta ⟨UIState.UI_MENU, 0, parameters, true, 0⟩ (-1)).1.currentParamIndex
      = (0 + (22 - 1)) % 22 := by
  have h := (C2_menu_wrap ⟨UIState.UI_MENU, 0, parameters, true, 0⟩
    rfl (by decide) (by decide)).2.1
  exact h.trans (by decide)

/-- C3: evaluating the embedded update at the failing input — Edit mode
on parameter 1 (Wave, value 0 = minVal) with delta = -1 — shows the
clamped value equals the old value, the store is unchanged, and yet the
callback is invoked with (18, 0) and the redraw flag is set, contrary to
the claim (and to the source comment that the callback fires only if the
parameter changed). -/
theorem C3_callback_fires_without_change :
    applyDelta ⟨UIState.UI_EDIT, 1, parameters, true, 0⟩ (-1)
      = (⟨UIState.UI_EDIT, 1, parameters, true, 0⟩, [(18, 0)], true) := by
  set_option maxRecDepth 100000 in decide

/-- C5 counterexample: 8192 interrupt-side additions of +4 total
S = 32768, but the int16_t accumulator wraps, so the drain returns
-32768, not S. -/
theorem C5_counterexample :
    (drainDelta ((List.replicate 8192 (4 : Int)).foldl addDelta 0)).1 = -32768 ∧
    (List.replicate 8192 (4 : Int)).sum = 32768 ∧
    (-32768 : Int) ≠ 32768 := by
  refine ⟨?_, ?_, by decide⟩
  · rw [drainDelta_fst, foldl_addDelta_zero, List.sum_replicate]
    norm_num [wrap16]
  · rw [List.sum_replicate]
    norm_num

/-- C5 (amended): the drain resets the accumulator to 0 and returns the
pending value; a drain with no pending additions returns 0; accumulation
after a drain starts again from 0; the accumulated value of any addition
sequence is its sum reduced to int16 range, so a drain returns exactly
the total S whenever S fits in [-32768, 32767]. -/
theorem C5_drain_exact (ds : List Int) (pending : Int) :
    (drainDelta pending).2 = 0 ∧
    (drainDelta 0).1 = 0 ∧
    ds.foldl addDelta (drainDelta pending).2 = ds.foldl addDelta 0 ∧
    ds.foldl addDelta 0 = wrap16 ds.sum ∧
    (-32768 ≤ ds.sum → ds.sum ≤ 32767 →
      (drainDelta (ds.foldl addDelta 0)).1 = ds.sum) := by
  refine ⟨rfl, rfl, rfl, foldl_addDelta_zero ds, ?_⟩
  intro h1 h2
  show ds.foldl addDelta 0 = ds.sum
  rw [foldl_addDelta_zero ds, wrap16_eq_self h1 h2]

/-- C5 witness: three additions totalling 5 drain as exactly 5. -/
theorem C5_drain_exact_witness :
    (drainDelta (([4, -1, 2] : List Int).foldl addDelta 0)).1 = 5 := by
  have h := (C5_drain_exact [4, -1, 2] 0).2.2.2.2 (by decide) (by decide)
  exact h.trans (by decide)

theorem stepAccStep_abs_le (a d : Int) (hd : d = 1 ∨ d = -1)
    (ha : a.natAbs ≤ 1) : ((stepAccStep a d).1).natAbs ≤ 1 := by
  have h3 : a = -1 ∨ a = 0 ∨ a = 1 := by omega
  rcases hd with h | h <;> rcases h3 with h2 | h2 | h2 <;>
    subst h <;> subst h2 <;> decide

/-- C6: starting from an in-range accumulator and a nonzero quarter-step
of plus or minus 1, the step accumulator emits exactly one detent of the
accumulator sign when the running value reaches absolute value 2 and
resets to 0; below 2 it emits nothing and just accumulates; the
accumulator stays within absolute value 1 after the step and across any
sequence of plus-or-minus-1 quarter-steps. -/
theorem C6_step_accumulator (acc raw : Int)
    (hraw : raw = 1 ∨ raw = -1) (hacc : acc.natAbs ≤ 1) :
    (acc + raw = 2 → stepAccStep acc raw = (0, some 1)) ∧
    (acc + raw = -2 → stepAccStep acc raw = (0, some (-1))) ∧
    ((acc + raw).natAbs < 2 → stepAccStep acc raw = (acc + raw, none)) ∧
    (stepAccStep acc raw).1.natAbs ≤ 1 ∧
    (∀ l : List Int, (∀ d ∈ l, d = 1 ∨ d = -1) →
      (l.foldl (fun x d => (stepAccStep x d).1) acc).natAbs ≤ 1) := by
  have seq : ∀ l : List Int, ∀ a : Int, a.natAbs ≤ 1 →
      (∀ d ∈ l, d = 1 ∨ d = -1) →
      (l.foldl (fun x d => (stepAccStep x d).1) a).natAbs ≤ 1 := by
    intro l
    induction l with
    | nil => intro a ha _; simpa using ha
    | cons d t ih =>
      intro a ha hall
      simp only [List.foldl_cons]
      exact ih ((stepAccStep a d).1)
        (stepAccStep_abs_le a d (hall d (List.mem_cons_self d t)) ha)
        (fun e he => hall e (List.mem_cons_of_mem d he))
  have h3 : acc = -1 ∨ acc = 0 ∨ acc = 1 := by omega
  refine ⟨?_, ?_, ?_, stepAccStep_abs_le acc raw hraw hacc, fun l hl => seq l acc hacc hl⟩ <;>
    (rcases hraw with h | h <;> rcases h3 with h2 | h2 | h2 <;>
      subst h <;> subst h2 <;> decide)

/-- C6 witness: accumulator 1 plus a +1 quarter-step reaches 2, emits a
+1 detent and resets to 0. -/
theorem C6_step_accumulator_witness : stepAccStep 1 1 = (0, some 1) :=
  (C6_step_accumulator 1 1 (Or.inl rfl) (by decide)).1 (by decide)

/-- C4: the quadrature decoder returns exactly the signed value of the
4x4 table for all 16 (previous, current) 2-bit pairs; in particular the
non-adjacent transitions 00-11, 01-10 and the four identity transitions
yield 0. -/
theorem C4_quadrature_table :
    kQuadratureTable 0 0 = 0 ∧ kQuadratureTable 0 1 = 1 ∧
    kQuadratureTable 0 2 = -1 ∧ kQuadratureTable 0 3 = 0 ∧
    kQuadratureTable 1 0 = -1 ∧ kQuadratureTable 1 1 = 0 ∧
    kQuadratureTable 1 2 = 0 ∧ kQuadratureTable 1 3 = 1 ∧
    kQuadratureTable 2 0 = 1 ∧ kQuadratureTable 2 1 = 0 ∧
    kQuadratureTable 2 2 = 0 ∧ kQuadratureTable 2 3 = -1 ∧
    kQuadratureTable 3 0 = 0 ∧ kQuadratureTable 3 1 = -1 ∧
    kQuadratureTable 3 2 = 1 ∧ kQuadratureTable 3 3 = 0 := by
  decide

/-- C7: the acceleration multiplier is 4 for elapsed below 15, 2 on
[15, 30), and 1 from 30 up; with the boundary values 14, 15, 29, 30 and
1000 evaluated concretely. -/
theorem C7_acceleration (t : Nat) :
    (t < 15 → calculateAcceleration t = 4) ∧
    (15 ≤ t → t < 30 → calculateAcceleration t = 2) ∧
    (30 ≤ t → calculateAcceleration t = 1) ∧
    calculateAcceleration 14 = 4 ∧ calculateAcceleration 15 = 2 ∧
    calculateAcceleration 29 = 2 ∧ calculateAcceleration 30 = 1 ∧
    calculateAcceleration 1000 = 1 := by
  refine ⟨?_, ?_, ?_, by decide, by decide, by decide, by decide, by decide⟩ <;>
    · intros
      unfold calculateAcceleration
      split_ifs <;> omega

/-- C7 witness: elapsed time 14 classifies as the times-4 multiplier. -/
theorem C7_acceleration_witness : calculateAcceleration 14 = 4 :=
  (C7_acceleration 14).1 (by decide)

/-- C8 counterexample: in Edit on a parameter with value 125 and bounds
[0, 127], a delta of 32767 makes the int16_t sum wrap negative, so the
code stores 0 (minVal) and the callback receives 0, while the claimed
saturating clamp of the true sum gives 127. -/
theorem C8_counterexample :
    applyDelta ⟨UIState.UI_EDIT, 0, [⟨"Volume", 7, 125, 0, 127⟩], true, 0⟩ 32767
      = (⟨UIState.UI_EDIT, 0, [⟨"Volume", 7, 0, 0, 127⟩], true, 0⟩, [(7, 0)], true) ∧
    specClamp ((125 : Int) + 32767) 0 127 = 127 := by
  constructor
  · decide
  · decide

/-- C8 (amended): in Edit mode with nonzero delta, the stored value is
the clamp of the 16-bit-wrapped sum; whenever value + delta stays within
the int16 range (in particular for every physically reachable delta) it
equals clamp(value + delta, minVal, maxVal), and the callback receives
(cc, the clamped stored value), never the unclamped sum. -/
theorem C8_edit_clamp (s : UIMState) (delta : Int) (param : Parameter)
    (he : s.state = UIState.UI_EDIT) (hnz : delta ≠ 0)
    (hp : s.params.get? s.currentParamIndex = some param)
    (hlo : -32768 ≤ (param.value : Int) + delta)
    (hhi : (param.value : Int) + delta ≤ 32767) :
    (applyDelta s delta).1.params
        = s.params.set s.currentParamIndex
            { param with value :=
                (specClamp ((param.value : Int) + delta)
                  (param.minVal : Int) (param.maxVal : Int)).toNat } ∧
    (applyDelta s delta).2.1
        = [(param.cc,
            (specClamp ((param.value : Int) + delta)
              (param.minVal : Int) (param.maxVal : Int)).toNat)] ∧
    (applyDelta s delta).2.2 = true := by
  have hstate : ¬ (s.state = UIState.UI_MENU) := by
    rw [he]; intro h; cases h
  simp only [applyDelta, if_neg hnz, if_neg hstate, hp,
    wrap16_eq_self hlo hhi, specClamp]
  exact ⟨trivial, trivial, trivial⟩

/-- C8 witness: value 125 in [0, 127] with delta +8 stores 127 and the
callback argument is the clamped 127. -/
theorem C8_edit_clamp_witness :
    (applyDelta ⟨UIState.UI_EDIT, 0, [⟨"Volume", 7, 125, 0, 127⟩], true, 0⟩ 8).2.1
      = [(7, 127)] := by
  have h := (C8_edit_clamp
    ⟨UIState.UI_EDIT, 0, [⟨"Volume", 7, 125, 0, 127⟩], true, 0⟩ 8
    ⟨"Volume", 7, 125, 0, 127⟩ rfl (by decide) rfl (by decide) (by decide)).2.1
  exact h.trans (by decide)

/-- C9: per poll, a press event is emitted exactly when the raw level is
pressed (LOW), the stored stable level is released (HIGH), and more than
100 time-units elapsed since the last committed transition; a qualifying
release commits the new level and timestamp but emits nothing; an edge
within the 100-unit window leaves the stored state untouched and emits
nothing; so does a poll with no level change. -/
theorem C9_debounce (last : Bool) (lastT : Nat) (raw : Bool) (now : Nat)
    (hmono : lastT ≤ now) (h32 : now < 4294967296) :
    ((readButton last lastT raw now).1 = true ↔
        raw = false ∧ last = true ∧ 100 < now - lastT) ∧
    (raw = false → last = true → 100 < now - lastT →
        readButton last lastT raw now = (true, false, now)) ∧
    (raw = true → last = false → 100 < now - lastT →
        readButton last lastT raw now = (false, true, now)) ∧
    (now - lastT ≤ 100 → readButton last lastT raw now = (false, last, lastT)) ∧
    (raw = last → readButton last lastT raw now = (false, last, lastT)) := by
  have hs : sub32 now lastT = now - lastT := sub32_eq_sub hmono h32
  cases raw <;> cases last <;>
    simp [readButton, hs] <;> split_ifs <;> simp_all <;> omega

/-- C9 witness: with the stable level released since time 0, a pressed
raw level polled at time 200 emits one press event and commits. -/
theorem C9_debounce_witness :
    readButton true 0 false 200 = (true, false, 200) :=
  (C9_debounce true 0 false 200 (by omega) (by norm_num)).2.1 rfl rfl (by omega)

/-- C10: updateParameterValue touches nothing but the value field of the
first parameter whose cc matches: the UI mode, the selected index, the
button state, and every other parameter and field are unchanged; with no
match the store is returned identically. -/
theorem C10_update_frame (s : UIMState) (cc v : Nat) :
    (updateParameterValueM s cc v).state = s.state ∧
    (updateParameterValueM s cc v).currentParamIndex = s.currentParamIndex ∧
    (updateParameterValueM s cc v).lastButtonState = s.lastButtonState ∧
    (updateParameterValueM s cc v).lastButtonTime = s.lastButtonTime ∧
    ((∀ p ∈ s.params, p.cc ≠ cc) → (updateParameterValueM s cc v).params = s.params) ∧
    (∀ pre p post, s.params = pre ++ p :: post →
        (∀ q ∈ pre, q.cc ≠ cc) → p.cc = cc →
        (updateParameterValueM s cc v).params
          = pre ++ { p with value := v } :: post) := by
  refine ⟨rfl, rfl, rfl, rfl, ?_, ?_⟩
  · intro h
    exact updateParameterValue_no_match cc v s.params h
  · intro pre p post hsplit hpre hp
    show updateParameterValue cc v s.params = _
    rw [hsplit]
    exact updateParameterValue_first_match cc v p post pre hpre hp

/-- C10 witness: a cc carried by no parameter leaves the whole store
unchanged. -/
theorem C10_update_frame_witness :
    (updateParameterValueM ⟨UIState.UI_MENU, 0, parameters, true, 0⟩ 200 3).params
      = parameters :=
  (C10_update_frame ⟨UIState.UI_MENU, 0, parameters, true, 0⟩ 200 3).2.2.2.2.1
    (by decide)

end Pico303
